import Mathlib

/-!
# DevFlow Dashboard - data layer embedding

A shallow embedding of the DevFlow Dashboard data model: the SQL schema
(tables, CHECK / UNIQUE / FOREIGN KEY constraints, row level security
policies, triggers, the calculate_project_progress function and the
project_stats view) together with the data-access operations of
src/lib/database.ts and the component-level Supabase calls.

Tables are lists of records, UUIDs are opaque Nat tokens, SQL timestamps
are Nat instants, DECIMAL money amounts are Rat.
-/

namespace DevFlow

/-- CREATE TYPE project_type AS ENUM ('client', 'personal', 'open_source') -/
inductive ProjectType
  | client
  | personal
  | open_source
deriving DecidableEq, Repr

/-- CREATE TYPE project_status AS ENUM ('pending', 'in_progress', 'completed', 'delivered') -/
inductive ProjectStatus
  | pending
  | in_progress
  | completed
  | delivered
deriving DecidableEq, Repr

/-- CREATE TYPE payment_status AS ENUM ('unpaid', 'partial', 'paid');
the middle state is called partPaid here. -/
inductive PaymentStatus
  | unpaid
  | partPaid
  | paid
deriving DecidableEq, Repr

/-- Row of the profiles table. -/
structure Profile where
  id : Nat
  email : String
  full_name : Option String
  avatar_url : Option String
  created_at : Nat
  updated_at : Nat
deriving DecidableEq, Repr

/-- Row of the projects table. -/
structure Project where
  id : Nat
  user_id : Nat
  title : String
  description : Option String
  type : ProjectType
  status : ProjectStatus
  payment_status : PaymentStatus
  progress : Int
  budget : Option Rat
  paid_amount : Rat
  start_date : Option Nat
  end_date : Option Nat
  deadline : Option Nat
  created_at : Nat
  updated_at : Nat
deriving DecidableEq, Repr

/-- Row of the clients table. -/
structure Client where
  id : Nat
  user_id : Nat
  name : String
  email : Option String
  phone : Option String
  company : Option String
  notes : Option String
  created_at : Nat
  updated_at : Nat
deriving DecidableEq, Repr

/-- Row of the project_clients junction table. -/
structure ProjectClient where
  id : Nat
  project_id : Nat
  client_id : Nat
  reference_note : Option String
  created_at : Nat
deriving DecidableEq, Repr

/-- Row of the tasks table. -/
structure Task where
  id : Nat
  project_id : Nat
  title : String
  description : Option String
  completed : Bool
  priority : Int
  due_date : Option Nat
  created_at : Nat
  updated_at : Nat
deriving DecidableEq, Repr

/-- Row of the project_timeline table. -/
structure TimelineEntry where
  id : Nat
  project_id : Nat
  milestone : String
  description : Option String
  completed : Bool
  completed_at : Option Nat
  order_index : Int
  created_at : Nat
deriving DecidableEq, Repr

/-- The persistent store: one list per table of the schema. -/
structure DB where
  profiles : List Profile
  projects : List Project
  clients : List Client
  project_clients : List ProjectClient
  tasks : List Task
  project_timeline : List TimelineEntry
deriving DecidableEq, Repr

/-- Errors surfaced by the storage layer (Postgres error classes). -/
inductive DBError
  | uniqueViolation
  | checkViolation
  | fkViolation
  | rlsDenied
deriving DecidableEq, Repr

/-- SQL ROUND on numeric: round half away from zero. -/
def sqlRound (q : Rat) : Int :=
  if q < 0 then -Int.floor (-q + 1 / 2) else Int.floor (q + 1 / 2)

/-- SELECT COUNT(*) FROM tasks WHERE project_id = project_uuid -/
def countProjectTasks (db : DB) (pid : Nat) : Nat :=
  (db.tasks.filter (fun t => t.project_id == pid)).length

/-- SELECT COUNT(*) FROM tasks WHERE project_id = project_uuid AND completed = TRUE -/
def countCompletedProjectTasks (db : DB) (pid : Nat) : Nat :=
  (db.tasks.filter (fun t => t.project_id == pid && t.completed)).length

/-- The SQL function calculate_project_progress(project_uuid): 0 when the
project has no tasks, otherwise ROUND((completed / total) * 100). -/
def calculate_project_progress (db : DB) (pid : Nat) : Int :=
  let total := countProjectTasks db pid
  if total = 0 then 0
  else sqlRound ((countCompletedProjectTasks db pid : Rat) / (total : Rat) * 100)

/-- A Partial Project payload: every field optional, as in the updates
argument of updateProject from src/lib/database.ts. -/
structure ProjectUpdates where
  title : Option String := none
  description : Option (Option String) := none
  type : Option ProjectType := none
  status : Option ProjectStatus := none
  payment_status : Option PaymentStatus := none
  progress : Option Int := none
  budget : Option (Option Rat) := none
  paid_amount : Option Rat := none
  start_date : Option (Option Nat) := none
  end_date : Option (Option Nat) := none
  deadline : Option (Option Nat) := none
  updated_at : Option Nat := none
deriving DecidableEq, Repr

/-- A Partial Client payload. -/
structure ClientUpdates where
  name : Option String := none
  email : Option (Option String) := none
  phone : Option (Option String) := none
  company : Option (Option String) := none
  notes : Option (Option String) := none
  updated_at : Option Nat := none
deriving DecidableEq, Repr

/-- A Partial Task payload. -/
structure TaskUpdates where
  title : Option String := none
  description : Option (Option String) := none
  completed : Option Bool := none
  priority : Option Int := none
  due_date : Option (Option Nat) := none
  updated_at : Option Nat := none
deriving DecidableEq, Repr

/-- SET of the supplied fields of an UPDATE statement on projects. -/
def applyProjectUpdates (u : ProjectUpdates) (p : Project) : Project :=
  { p with
    title := u.title.getD p.title
    description := u.description.getD p.description
    type := u.type.getD p.type
    status := u.status.getD p.status
    payment_status := u.payment_status.getD p.payment_status
    progress := u.progress.getD p.progress
    budget := u.budget.getD p.budget
    paid_amount := u.paid_amount.getD p.paid_amount
    start_date := u.start_date.getD p.start_date
    end_date := u.end_date.getD p.end_date
    deadline := u.deadline.getD p.deadline
    updated_at := u.updated_at.getD p.updated_at }

/-- SET of the supplied fields of an UPDATE statement on clients. -/
def applyClientUpdates (u : ClientUpdates) (c : Client) : Client :=
  { c with
    name := u.name.getD c.name
    email := u.email.getD c.email
    phone := u.phone.getD c.phone
    company := u.company.getD c.company
    notes := u.notes.getD c.notes
    updated_at := u.updated_at.getD c.updated_at }

/-- SET of the supplied fields of an UPDATE statement on tasks. -/
def applyTaskUpdates (u : TaskUpdates) (t : Task) : Task :=
  { t with
    title := u.title.getD t.title
    description := u.description.getD t.description
    completed := u.completed.getD t.completed
    priority := u.priority.getD t.priority
    due_date := u.due_date.getD t.due_date
    updated_at := u.updated_at.getD t.updated_at }

/-- The BEFORE UPDATE trigger update_updated_at_column on projects:
NEW.updated_at = CURRENT_TIMESTAMP, whatever the statement supplied. -/
def touchProject (now : Nat) (p : Project) : Project :=
  { p with updated_at := now }

/-- The BEFORE UPDATE trigger update_updated_at_column on clients. -/
def touchClient (now : Nat) (c : Client) : Client :=
  { c with updated_at := now }

/-- The BEFORE UPDATE trigger update_updated_at_column on tasks. -/
def touchTask (now : Nat) (t : Task) : Task :=
  { t with updated_at := now }

/-- The row an UPDATE on projects commits: supplied fields applied, then
the BEFORE UPDATE trigger overrides updated_at with the commit time. -/
def commitProjectUpdate (u : ProjectUpdates) (now : Nat) (p : Project) : Project :=
  touchProject now (applyProjectUpdates u p)

/-- The row an UPDATE on clients commits. -/
def commitClientUpdate (u : ClientUpdates) (now : Nat) (c : Client) : Client :=
  touchClient now (applyClientUpdates u c)

/-- The row an UPDATE on tasks commits. -/
def commitTaskUpdate (u : TaskUpdates) (now : Nat) (t : Task) : Task :=
  touchTask now (applyTaskUpdates u t)

/-- CHECK (progress >= 0 AND progress <= 100) on the projects table. -/
def projectCheck (p : Project) : Bool :=
  decide (0 ≤ p.progress) && decide (p.progress ≤ 100)

/-- Insertion into a list sorted by the boolean relation le. -/
def insSorted {α : Type} (le : α → α → Bool) (a : α) : List α → List α
  | [] => [a]
  | b :: bs => if le a b then a :: b :: bs else b :: insSorted le a bs

/-- Insertion sort by the boolean relation le; models an ORDER BY clause. -/
def insSort {α : Type} (le : α → α → Bool) : List α → List α
  | [] => []
  | a :: as => insSorted le a (insSort le as)

/-- getProjects of src/lib/database.ts: rows of projects with
user_id = caller, ORDER BY updated_at descending. -/
def getProjects (uid : Nat) (db : DB) : List Project :=
  insSort (fun a b => b.updated_at ≤ a.updated_at)
    (db.projects.filter (fun p => p.user_id == uid))

/-- getProject of src/lib/database.ts: select WHERE id AND user_id = caller
with .single(), which errors (null result) unless exactly one row matches. -/
def getProject (uid : Nat) (pid : Nat) (db : DB) : Option Project :=
  match db.projects.filter (fun p => p.id == pid && p.user_id == uid) with
  | [p] => some p
  | _ => none

/-- createProject of src/lib/database.ts plus the table constraints:
user_id, created_at and updated_at are overridden server-side, then the
insert is accepted unless the primary key is taken, the CHECK constraint
on progress fails, or the owner foreign key dangles. -/
def createProject (uid : Nat) (p : Project) (now : Nat) (db : DB) :
    Option Project × DB :=
  let q := { p with user_id := uid, created_at := now, updated_at := now }
  if db.projects.any (fun r => r.id == q.id) then (none, db)
  else if !projectCheck q then (none, db)
  else if !db.profiles.any (fun pr => pr.id == uid) then (none, db)
  else (some q, { db with projects := db.projects ++ [q] })

/-- updateProject of src/lib/database.ts: UPDATE projects SET ...
WHERE id = pid AND user_id = caller (the RLS policy imposes the same owner
filter), the trigger stamping updated_at := now on each updated row; the
CHECK constraint rejects the whole statement atomically; .single() yields
a row only when exactly one row came back. -/
def updateProject (uid : Nat) (pid : Nat) (u : ProjectUpdates) (now : Nat)
    (db : DB) : Option Project × DB :=
  let hit := fun p : Project => p.id == pid && p.user_id == uid
  let written := (db.projects.filter hit).map (commitProjectUpdate u now)
  if written.all projectCheck then
    (match written with
     | [p] => some p
     | _ => none,
     { db with projects :=
        db.projects.map (fun p => if hit p then commitProjectUpdate u now p else p) })
  else (none, db)

/-- deleteProject of src/lib/database.ts: DELETE FROM projects
WHERE id = pid AND user_id = caller, the schema cascading the delete to
tasks, project_timeline and project_clients; the call reports true
whenever storage reports no error, however many rows matched. -/
def deleteProject (uid : Nat) (pid : Nat) (db : DB) : Bool × DB :=
  let hit := fun p : Project => p.id == pid && p.user_id == uid
  let gone := (db.projects.filter hit).map (fun p => p.id)
  (true,
   { db with
     projects := db.projects.filter (fun p => !hit p)
     tasks := db.tasks.filter (fun t => !gone.contains t.project_id)
     project_timeline := db.project_timeline.filter (fun e => !gone.contains e.project_id)
     project_clients := db.project_clients.filter (fun pc => !gone.contains pc.project_id) })

/-- getClients of src/lib/database.ts: rows of clients with
user_id = caller, ORDER BY name ascending. -/
def getClients (uid : Nat) (db : DB) : List Client :=
  insSort (fun a b => decide (a.name ≤ b.name))
    (db.clients.filter (fun c => c.user_id == uid))

/-- An UPDATE on clients through the RLS policy (used by the client edit
component): WHERE id = cid filtered by the owner policy, trigger stamping
updated_at, .single() semantics for the returned row. -/
def updateClient (uid : Nat) (cid : Nat) (u : ClientUpdates) (now : Nat)
    (db : DB) : Option Client × DB :=
  let hit := fun c : Client => c.id == cid && c.user_id == uid
  let written := (db.clients.filter hit).map (commitClientUpdate u now)
  (match written with
   | [c] => some c
   | _ => none,
   { db with clients :=
      db.clients.map (fun c => if hit c then commitClientUpdate u now c else c) })

/-- The delete of src/unnamed/part_006: DELETE FROM clients WHERE id = cid,
the RLS policy supplying the owner filter, cascading to project_clients;
no error is reported whether or not a row matched. -/
def deleteClient (uid : Nat) (cid : Nat) (db : DB) : Bool × DB :=
  let hit := fun c : Client => c.id == cid && c.user_id == uid
  let gone := (db.clients.filter hit).map (fun c => c.id)
  (true,
   { db with
     clients := db.clients.filter (fun c => !hit c)
     project_clients := db.project_clients.filter (fun pc => !gone.contains pc.client_id) })

/-- The transitive RLS policy on tasks: a row is visible iff a project with
its project_id belongs to the caller. -/
def listTasks (uid : Nat) (db : DB) : List Task :=
  db.tasks.filter (fun t =>
    db.projects.any (fun p => p.id == t.project_id && p.user_id == uid))

/-- The transitive RLS policy on project_timeline. -/
def listTimeline (uid : Nat) (db : DB) : List TimelineEntry :=
  db.project_timeline.filter (fun e =>
    db.projects.any (fun p => p.id == e.project_id && p.user_id == uid))

/-- The transitive RLS policy on project_clients. -/
def listProjectClients (uid : Nat) (db : DB) : List ProjectClient :=
  db.project_clients.filter (fun pc =>
    db.projects.any (fun p => p.id == pc.project_id && p.user_id == uid))

/-- INSERT INTO project_clients as issued by the project modals: the RLS
WITH CHECK clause requires the caller to own the target project, the two
foreign keys must resolve (foreign key checks consult the table directly,
not the RLS-visible subset), and UNIQUE(project_id, client_id) rejects a
duplicate pair. An error leaves the store untouched. -/
def insertProjectClient (uid : Nat) (pc : ProjectClient) (db : DB) :
    Option DBError × DB :=
  if !db.projects.any (fun p => p.id == pc.project_id && p.user_id == uid) then
    (some DBError.rlsDenied, db)
  else if !db.projects.any (fun p => p.id == pc.project_id) then
    (some DBError.fkViolation, db)
  else if !db.clients.any (fun c => c.id == pc.client_id) then
    (some DBError.fkViolation, db)
  else if db.project_clients.any
      (fun l => l.project_id == pc.project_id && l.client_id == pc.client_id) then
    (some DBError.uniqueViolation, db)
  else if db.project_clients.any (fun l => l.id == pc.id) then
    (some DBError.uniqueViolation, db)
  else (none, { db with project_clients := db.project_clients ++ [pc] })

/-- DELETE FROM project_clients for one (project_id, client_id) pair. -/
def deleteProjectClientPair (projId clientId : Nat) (db : DB) : DB :=
  { db with project_clients :=
      db.project_clients.filter fun l =>
        !(l.project_id == projId && l.client_id == clientId) }

/-- A row of auth.users as seen by the provisioning trigger: id, email and
the two display-name entries of raw_user_meta_data. -/
structure AuthUser where
  id : Nat
  email : String
  meta_full_name : Option String
  meta_name : Option String
deriving DecidableEq, Repr

/-- The characters before the first occurrence of the separator. -/
def takeBeforeAt : List Char → List Char
  | [] => []
  | c :: cs => if c = '@' then [] else c :: takeBeforeAt cs

/-- split_part(email, '@', 1): the text before the first '@', the whole
string when no '@' occurs. -/
def emailLocalPart (email : String) : String :=
  String.mk (takeBeforeAt email.data)

/-- INSERT INTO profiles under the primary key on id and the UNIQUE
constraint on email; a violation rejects the insert and leaves the table
unchanged. -/
def insertProfileRow (pr : Profile) (db : DB) : Option DBError × DB :=
  if db.profiles.any (fun r => r.id == pr.id) then
    (some DBError.uniqueViolation, db)
  else if db.profiles.any (fun r => r.email == pr.email) then
    (some DBError.uniqueViolation, db)
  else (none, { db with profiles := db.profiles ++ [pr] })

/-- The handle_new_user trigger function: INSERT INTO profiles (id, email,
full_name) VALUES (NEW.id, NEW.email, COALESCE(meta full_name, meta name,
split_part(NEW.email, '@', 1))), the remaining columns defaulting. -/
def handle_new_user (now : Nat) (u : AuthUser) (db : DB) : Option DBError × DB :=
  insertProfileRow
    { id := u.id
      email := u.email
      full_name := some (u.meta_full_name.getD (u.meta_name.getD (emailLocalPart u.email)))
      avatar_url := none
      created_at := now
      updated_at := now } db

/-- Deleting an identity: the ON DELETE CASCADE chain removes the profile,
every project and client it owns, and every task, timeline entry and
project-client link hanging off a removed project (links also fall with a
removed client). -/
def deleteIdentityCascade (pid : Nat) (db : DB) : DB :=
  let goneProjects := (db.projects.filter (fun p => p.user_id == pid)).map (fun p => p.id)
  let goneClients := (db.clients.filter (fun c => c.user_id == pid)).map (fun c => c.id)
  { profiles := db.profiles.filter (fun r => !(r.id == pid))
    projects := db.projects.filter (fun p => !(p.user_id == pid))
    clients := db.clients.filter (fun c => !(c.user_id == pid))
    project_clients := db.project_clients.filter (fun l =>
      !goneProjects.contains l.project_id && !goneClients.contains l.client_id)
    tasks := db.tasks.filter (fun t => !goneProjects.contains t.project_id)
    project_timeline := db.project_timeline.filter (fun e =>
      !goneProjects.contains e.project_id) }

/-- The state in which one project row (and, by the foreign keys, its child
rows) does not exist; reads on other rows are compared against it. -/
def eraseProjectCascade (pid : Nat) (db : DB) : DB :=
  { db with
    projects := db.projects.filter (fun p => !(p.id == pid))
    tasks := db.tasks.filter (fun t => !(t.project_id == pid))
    project_timeline := db.project_timeline.filter (fun e => !(e.project_id == pid))
    project_clients := db.project_clients.filter (fun l => !(l.project_id == pid)) }

/-- The state in which one client row (and its links) does not exist. -/
def eraseClientCascade (cid : Nat) (db : DB) : DB :=
  { db with
    clients := db.clients.filter (fun c => !(c.id == cid))
    project_clients := db.project_clients.filter (fun l => !(l.client_id == cid)) }

/-- One output row of the project_stats view. -/
structure ProjectStatsRow where
  user_id : Nat
  total_projects : Nat
  active_projects : Nat
  completed_projects : Nat
  delivered_projects : Nat
  total_budget : Rat
  total_revenue : Rat
  average_progress : Rat
deriving DecidableEq, Repr

/-- The projects a given identity owns (the grouping key of the view). -/
def ownedProjects (db : DB) (uid : Nat) : List Project :=
  db.projects.filter (fun p => p.user_id == uid)

/-- The aggregate row of project_stats for one user_id group: COUNT(*),
the three FILTERed status counts, COALESCE(SUM(budget), 0),
COALESCE(SUM(paid_amount), 0) and COALESCE(AVG(progress), 0). -/
def statsRowFor (db : DB) (uid : Nat) : ProjectStatsRow :=
  let ps := ownedProjects db uid
  { user_id := uid
    total_projects := ps.length
    active_projects := (ps.filter (fun p => p.status == ProjectStatus.in_progress)).length
    completed_projects := (ps.filter (fun p => p.status == ProjectStatus.completed)).length
    delivered_projects := (ps.filter (fun p => p.status == ProjectStatus.delivered)).length
    total_budget := (ps.map (fun p => p.budget.getD 0)).sum
    total_revenue := (ps.map (fun p => p.paid_amount)).sum
    average_progress :=
      if ps.length = 0 then 0
      else (ps.map (fun p => (p.progress : Rat))).sum / (ps.length : Rat) }

/-- The project_stats view: SELECT ... FROM projects GROUP BY user_id —
one row per user_id occurring in projects, and none for any other. -/
def project_stats (db : DB) : List ProjectStatsRow :=
  ((db.projects.map (fun p => p.user_id)).dedup).map (statsRowFor db)

/-- Reading the view for one identity: the row keyed by its user_id,
when the view has one. -/
def statsFor (db : DB) (uid : Nat) : Option ProjectStatsRow :=
  (project_stats db).find? (fun r => r.user_id == uid)

/-- A task row with the given key, project and completion flag and the
column defaults of the schema. -/
def mkTask (id pid : Nat) (done : Bool) : Task :=
  { id := id, project_id := pid, title := "task", description := none
    completed := done, priority := 1, due_date := none
    created_at := 0, updated_at := 0 }

/-- A profile row with the column defaults. -/
def mkProfile (id : Nat) (email : String) : Profile :=
  { id := id, email := email, full_name := none, avatar_url := none
    created_at := 0, updated_at := 0 }

/-- A project row with the column defaults of the schema. -/
def mkProject (id uid : Nat) : Project :=
  { id := id, user_id := uid, title := "project", description := none
    type := ProjectType.personal, status := ProjectStatus.pending
    payment_status := PaymentStatus.unpaid, progress := 0
    budget := none, paid_amount := 0
    start_date := none, end_date := none, deadline := none
    created_at := 0, updated_at := 0 }

/-- A client row with the column defaults of the schema. -/
def mkClient (id uid : Nat) (name : String) : Client :=
  { id := id, user_id := uid, name := name, email := none, phone := none
    company := none, notes := none, created_at := 0, updated_at := 0 }

/-- A project-client link row. -/
def mkLink (id pid cid : Nat) : ProjectClient :=
  { id := id, project_id := pid, client_id := cid
    reference_note := none, created_at := 0 }

/-- The empty store. -/
def emptyDB : DB :=
  { profiles := [], projects := [], clients := []
    project_clients := [], tasks := [], project_timeline := [] }

/-- A store whose project 1 has four tasks, three of them completed. -/
def dbFourTasks : DB :=
  { emptyDB with
    profiles := [mkProfile 1 "dev@devflow.io"]
    projects := [mkProject 1 1]
    tasks := [mkTask 1 1 true, mkTask 2 1 true, mkTask 3 1 true, mkTask 4 1 false] }

/-- A store whose project 1 has three tasks, one of them completed. -/
def dbThreeTasks : DB :=
  { emptyDB with
    profiles := [mkProfile 1 "dev@devflow.io"]
    projects := [mkProject 1 1]
    tasks := [mkTask 1 1 true, mkTask 2 1 false, mkTask 3 1 false] }

/-- Two identities; identity 1 owns project 11 and client 21, identity 2
owns project 10 and client 20; project 10 carries one task, one timeline
entry and a link to client 20. -/
def dbShared : DB :=
  { profiles := [mkProfile 1 "alice@devflow.io", mkProfile 2 "bob@devflow.io"]
    projects := [mkProject 10 2, mkProject 11 1]
    clients := [mkClient 20 2 "acme", mkClient 21 1 "zeta"]
    project_clients := [mkLink 30 10 20]
    tasks := [mkTask 40 10 true, mkTask 41 11 false]
    project_timeline :=
      [{ id := 50, project_id := 10, milestone := "kickoff", description := none
         completed := false, completed_at := none, order_index := 1, created_at := 0 }] }

/-- dbShared with the foreign client 20 (and its links) absent. -/
def dbSharedNoClient20 : DB := eraseClientCascade 20 dbShared

/-- A link an attacker (identity 1) would insert to probe client 20. -/
def probeLink : ProjectClient := mkLink 31 11 20

/-- One identity that owns no project at all. -/
def dbNoProjects : DB :=
  { emptyDB with profiles := [mkProfile 1 "solo@devflow.io"] }

/-- The all-zero aggregate record the specification expects for an
identity with zero projects. -/
def zeroStatsRow (uid : Nat) : ProjectStatsRow :=
  { user_id := uid, total_projects := 0, active_projects := 0
    completed_projects := 0, delivered_projects := 0
    total_budget := 0, total_revenue := 0, average_progress := 0 }

/-- The auth.users row of the provisioning examples: no explicit name in
the metadata, so the local part of the email decides display_name. -/
def newUser : AuthUser :=
  { id := 7, email := "carol@devflow.io", meta_full_name := none, meta_name := none }

/-- The store right after the first provisioning run for newUser. -/
def dbAfterFirstRun : DB := (handle_new_user 5 newUser emptyDB).2

/-- A project payload whose progress violates the CHECK constraint. -/
def badProject : Project := { mkProject 3 1 with progress := 150 }

/-- dbShared with identity 1 also holding a link from its project 11 to
its client 21. -/
def dbLinked : DB :=
  { dbShared with project_clients := [mkLink 30 10 20, mkLink 31 11 21] }

/-! ## Shared list lemmas -/

theorem filter_filter_of_imp {α : Type} (l : List α) (p q : α → Bool)
    (h : ∀ a ∈ l, q a = true → p a = true) :
    (l.filter p).filter q = l.filter q := by
  induction l with
  | nil => rfl
  | cons a as ih =>
    have ih2 := ih (fun b hb hq => h b (List.mem_cons_of_mem a hb) hq)
    by_cases hq : q a = true
    · have hp : p a = true := h a (List.mem_cons_self a as) hq
      simp [List.filter_cons, hp, hq, ih2]
    · by_cases hp : p a = true <;>
        simp [List.filter_cons, hp, hq, ih2]

theorem map_ite_eq_self {α : Type} (l : List α) (pred : α → Bool) (f : α → α)
    (h : ∀ a ∈ l, pred a = false) :
    l.map (fun a => if pred a then f a else a) = l := by
  induction l with
  | nil => rfl
  | cons a as ih =>
    have ha : pred a = false := h a (List.mem_cons_self a as)
    have ih2 := ih (fun b hb => h b (List.mem_cons_of_mem a hb))
    simp [ha, ih2]

theorem filter_not_eq_self {α : Type} (l : List α) (pred : α → Bool)
    (h : ∀ a ∈ l, pred a = false) :
    l.filter (fun a => !pred a) = l :=
  List.filter_eq_self.mpr (fun a ha => by simp [h a ha])

/-! ## The derived progress function (claim C3) -/

theorem countCompleted_le_count (db : DB) (pid : Nat) :
    countCompletedProjectTasks db pid ≤ countProjectTasks db pid := by
  unfold countCompletedProjectTasks countProjectTasks
  have hsub : db.tasks.filter (fun t => t.project_id == pid && t.completed) =
      (db.tasks.filter (fun t => t.project_id == pid)).filter (fun t => t.completed) := by
    rw [List.filter_filter]
    exact List.filter_congr (fun t _ => by cases ht : t.completed <;> simp [ht])
  rw [hsub]
  exact List.length_filter_le _ _

theorem calculate_eq_natFormula (db : DB) (pid : Nat)
    (h : countProjectTasks db pid ≠ 0) :
    calculate_project_progress db pid =
      ((200 * countCompletedProjectTasks db pid + countProjectTasks db pid) /
        (2 * countProjectTasks db pid) : ℕ) := by
  unfold calculate_project_progress
  set c := countCompletedProjectTasks db pid with hc
  set t := countProjectTasks db pid with ht
  simp only [if_neg h]
  have htq : ((t : ℚ)) ≠ 0 := Nat.cast_ne_zero.mpr h
  have h0 : (0 : ℚ) ≤ (c : ℚ) / (t : ℚ) * 100 := by positivity
  rw [sqlRound, if_neg (not_lt.mpr h0)]
  have hsum : (c : ℚ) / (t : ℚ) * 100 + 1 / 2 =
      ((200 * c + t : ℕ) : ℚ) / ((2 * t : ℕ) : ℚ) := by
    push_cast
    field_simp
    ring
  rw [hsum, Rat.floor_natCast_div_natCast, ← Int.ofNat_ediv]

theorem natFormula_le_100 (c t : Nat) (hle : c ≤ t) (ht : t ≠ 0) :
    (200 * c + t) / (2 * t) ≤ 100 := by
  have htpos : 0 < 2 * t := by omega
  have : (200 * c + t) / (2 * t) < 101 := by
    rw [Nat.div_lt_iff_lt_mul htpos]
    omega
  omega

/-- C3: calculate_project_progress returns 0 for a project with no tasks;
otherwise it returns round(100 * completed / total) with round-half-up
semantics, which over the naturals is the integer
(200 * completed + total) / (2 * total); in particular it returns 75 for
four tasks of which three are done and 33 for three tasks of which one is
done, and the result always lies in [0, 100]. -/
theorem computeProgress_round_half_up_and_bounds :
    (∀ db pid, countProjectTasks db pid = 0 → calculate_project_progress db pid = 0) ∧
    (∀ db pid, countProjectTasks db pid ≠ 0 →
      calculate_project_progress db pid =
        ((200 * countCompletedProjectTasks db pid + countProjectTasks db pid) /
          (2 * countProjectTasks db pid) : ℕ)) ∧
    (∀ db pid, 0 ≤ calculate_project_progress db pid ∧
      calculate_project_progress db pid ≤ 100) ∧
    calculate_project_progress dbFourTasks 1 = 75 ∧
    calculate_project_progress dbThreeTasks 1 = 33 := by
  refine ⟨?_, calculate_eq_natFormula, ?_, ?_, ?_⟩
  · intro db pid h
    unfold calculate_project_progress
    simp [h]
  · intro db pid
    by_cases h : countProjectTasks db pid = 0
    · unfold calculate_project_progress
      simp [h]
    · rw [calculate_eq_natFormula db pid h]
      exact ⟨Int.natCast_nonneg _,
        Int.ofNat_le.mpr (natFormula_le_100 _ _ (countCompleted_le_count db pid) h)⟩
  · rw [calculate_eq_natFormula dbFourTasks 1 (by decide)]
    decide
  · rw [calculate_eq_natFormula dbThreeTasks 1 (by decide)]
    decide

/-- Witness for C3 at concrete stores. -/
theorem computeProgress_round_half_up_and_bounds_witness :
    calculate_project_progress dbNoProjects 1 = 0 ∧
    calculate_project_progress dbFourTasks 1 =
      ((200 * countCompletedProjectTasks dbFourTasks 1 + countProjectTasks dbFourTasks 1) /
        (2 * countProjectTasks dbFourTasks 1) : ℕ) :=
  ⟨computeProgress_round_half_up_and_bounds.1 dbNoProjects 1 (by decide),
   computeProgress_round_half_up_and_bounds.2.1 dbFourTasks 1 (by decide)⟩

/-- C2: deleting an identity removes its profile row, every client and
project it owns, and transitively every task, timeline entry and
project-client link of those projects (links also through an owned
client); rows of other owners survive untouched. -/
theorem identity_cascade_delete (db : DB) (pid : Nat) :
    (∀ r ∈ (deleteIdentityCascade pid db).profiles, r.id ≠ pid) ∧
    (∀ p ∈ (deleteIdentityCascade pid db).projects, p.user_id ≠ pid) ∧
    (∀ c ∈ (deleteIdentityCascade pid db).clients, c.user_id ≠ pid) ∧
    (∀ t ∈ (deleteIdentityCascade pid db).tasks, ∀ p ∈ db.projects,
      p.user_id = pid → t.project_id ≠ p.id) ∧
    (∀ e ∈ (deleteIdentityCascade pid db).project_timeline, ∀ p ∈ db.projects,
      p.user_id = pid → e.project_id ≠ p.id) ∧
    (∀ l ∈ (deleteIdentityCascade pid db).project_clients,
      (∀ p ∈ db.projects, p.user_id = pid → l.project_id ≠ p.id) ∧
      (∀ c ∈ db.clients, c.user_id = pid → l.client_id ≠ c.id)) ∧
    (∀ p ∈ db.projects, p.user_id ≠ pid → p ∈ (deleteIdentityCascade pid db).projects) ∧
    (∀ c ∈ db.clients, c.user_id ≠ pid → c ∈ (deleteIdentityCascade pid db).clients) ∧
    (∀ r ∈ db.profiles, r.id ≠ pid → r ∈ (deleteIdentityCascade pid db).profiles) := by
  refine ⟨?_, ?_, ?_, ?_, ?_, ?_, ?_, ?_, ?_⟩
  · intro r hr
    simp only [deleteIdentityCascade, List.mem_filter] at hr
    simpa using hr.2
  · intro p hp
    simp only [deleteIdentityCascade, List.mem_filter] at hp
    simpa using hp.2
  · intro c hc
    simp only [deleteIdentityCascade, List.mem_filter] at hc
    simpa using hc.2
  · intro t ht p hp hown heq
    simp only [deleteIdentityCascade, List.mem_filter] at ht
    have hnot := ht.2
    simp only [Bool.not_eq_true'] at hnot
    simp [List.contains] at hnot
    exact absurd heq.symm (hnot p hp hown)
  · intro e he p hp hown heq
    simp only [deleteIdentityCascade, List.mem_filter] at he
    have hnot := he.2
    simp only [Bool.not_eq_true'] at hnot
    simp [List.contains] at hnot
    exact absurd heq.symm (hnot p hp hown)
  · intro l hl
    simp only [deleteIdentityCascade, List.mem_filter] at hl
    have hnot := hl.2
    rw [Bool.and_eq_true] at hnot
    constructor
    · intro p hp hown heq
      have hnp := hnot.1
      simp only [Bool.not_eq_true'] at hnp
      simp [List.contains] at hnp
      exact absurd heq.symm (hnp p hp hown)
    · intro c hc hown heq
      have hnc := hnot.2
      simp only [Bool.not_eq_true'] at hnc
      simp [List.contains] at hnc
      exact absurd heq.symm (hnc c hc hown)
  · intro p hp hne
    simp only [deleteIdentityCascade]
    exact List.mem_filter.mpr ⟨hp, by simp [hne]⟩
  · intro c hc hne
    simp only [deleteIdentityCascade]
    exact List.mem_filter.mpr ⟨hc, by simp [hne]⟩
  · intro r hr hne
    simp only [deleteIdentityCascade]
    exact List.mem_filter.mpr ⟨hr, by simp [hne]⟩

/-- Witness for C2 at a concrete store: deleting identity 2 keeps
identity 1 rows and scrubs every row reachable from identity 2. -/
theorem identity_cascade_delete_witness :
    mkProject 11 1 ∈ (deleteIdentityCascade 2 dbShared).projects ∧
    (mkProject 11 1).user_id ≠ 2 ∧
    (mkTask 41 11 false).project_id ≠ (mkProject 10 2).id :=
  ⟨(identity_cascade_delete dbShared 2).2.2.2.2.2.2.1 (mkProject 11 1) (by decide) (by decide),
   (identity_cascade_delete dbShared 2).2.1 (mkProject 11 1) (by decide),
   (identity_cascade_delete dbShared 2).2.2.2.1 (mkTask 41 11 false) (by decide)
     (mkProject 10 2) (by decide) (by decide)⟩

/-- C4: a committed update on projects, clients or tasks stamps updated_at
with the commit time, overriding any caller-supplied value; with commit
times ordered, updated_at never decreases across consecutive updates; and
at the store level every project row after updateProject is either an
untouched old row or carries the commit time. -/
theorem updated_at_commit_time :
    (∀ u now p, (commitProjectUpdate u now p).updated_at = now) ∧
    (∀ u now c, (commitClientUpdate u now c).updated_at = now) ∧
    (∀ u now t, (commitTaskUpdate u now t).updated_at = now) ∧
    (∀ u1 u2 n1 n2 (p : Project), n1 ≤ n2 →
      (commitProjectUpdate u1 n1 p).updated_at ≤
        (commitProjectUpdate u2 n2 (commitProjectUpdate u1 n1 p)).updated_at) ∧
    (∀ uid pid u now db, ∀ q ∈ (updateProject uid pid u now db).2.projects,
      q ∈ db.projects ∨ q.updated_at = now) := by
  refine ⟨fun u now p => rfl, fun u now c => rfl, fun u now t => rfl,
    fun u1 u2 n1 n2 p h => le_of_le_of_eq h rfl, ?_⟩
  intro uid pid u now db q hq
  simp only [updateProject] at hq
  by_cases hall : (((db.projects.filter (fun p => p.id == pid && p.user_id == uid)).map
      (commitProjectUpdate u now)).all projectCheck) = true
  · rw [if_pos hall] at hq
    obtain ⟨a, ha, rfl⟩ := List.mem_map.mp hq
    by_cases hhit : (a.id == pid && a.user_id == uid) = true
    · right
      simp [hhit, commitProjectUpdate, touchProject]
    · left
      simpa [hhit] using ha
  · rw [if_neg hall] at hq
    exact Or.inl hq

/-- Witness for C4: a stale caller-supplied updated_at of 0 is overridden
by commit time 9, and two updates at times 3 then 9 never go backwards. -/
theorem updated_at_commit_time_witness :
    (commitProjectUpdate { updated_at := some 0 } 9 (mkProject 1 1)).updated_at = 9 ∧
    (commitProjectUpdate {} 3 (mkProject 1 1)).updated_at ≤
      (commitProjectUpdate { updated_at := some 0 } 9
        (commitProjectUpdate {} 3 (mkProject 1 1))).updated_at :=
  ⟨updated_at_commit_time.1 { updated_at := some 0 } 9 (mkProject 1 1),
   updated_at_commit_time.2.2.2.1 {} { updated_at := some 0 } 3 9 (mkProject 1 1) (by decide)⟩

/-- C5: the CHECK constraint keeps progress inside [0, 100]: both
createProject and updateProject preserve the invariant on every stored
project row, and a create or update carrying an out-of-range progress is
rejected with no write at all. -/
theorem progress_within_bounds :
    (∀ db uid p now, (∀ q ∈ db.projects, projectCheck q = true) →
      ∀ q ∈ (createProject uid p now db).2.projects, projectCheck q = true) ∧
    (∀ db uid pid u now, (∀ q ∈ db.projects, projectCheck q = true) →
      ∀ q ∈ (updateProject uid pid u now db).2.projects, projectCheck q = true) ∧
    (∀ db uid p now, p.progress < 0 ∨ 100 < p.progress →
      createProject uid p now db = (none, db)) ∧
    (∀ db uid pid u now v, u.progress = some v → (v < 0 ∨ 100 < v) →
      updateProject uid pid u now db = (none, db)) := by
  refine ⟨?_, ?_, ?_, ?_⟩
  · intro db uid p now hinv q hq
    simp only [createProject] at hq
    split at hq
    · exact hinv q hq
    · split at hq
      · exact hinv q hq
      · split at hq
        · exact hinv q hq
        · rcases List.mem_append.mp hq with hmem | hnew
          · exact hinv q hmem
          · rename_i hchk _
            simp only [List.mem_singleton] at hnew
            subst hnew
            simpa using hchk
  · intro db uid pid u now hinv q hq
    simp only [updateProject] at hq
    by_cases hall : (((db.projects.filter (fun r => r.id == pid && r.user_id == uid)).map
        (commitProjectUpdate u now)).all projectCheck) = true
    · rw [if_pos hall] at hq
      obtain ⟨a, ha, rfl⟩ := List.mem_map.mp hq
      by_cases hhit : (a.id == pid && a.user_id == uid) = true
      · have hmem : commitProjectUpdate u now a ∈
            (db.projects.filter (fun r => r.id == pid && r.user_id == uid)).map
              (commitProjectUpdate u now) :=
          List.mem_map_of_mem _ (List.mem_filter.mpr ⟨ha, hhit⟩)
        have := List.all_eq_true.mp hall _ hmem
        simpa [hhit] using this
      · simpa [hhit] using hinv a ha
    · rw [if_neg hall] at hq
      exact hinv q hq
  · intro db uid p now hbad
    simp only [createProject]
    have hchk : projectCheck { p with user_id := uid, created_at := now, updated_at := now } = false := by
      simp [projectCheck]
      omega
    split
    · rfl
    · rw [hchk]
      simp
  · intro db uid pid u now v hv hbad
    simp only [updateProject]
    by_cases hnil : db.projects.filter (fun r => r.id == pid && r.user_id == uid) = []
    · have hnohit : ∀ a ∈ db.projects, (a.id == pid && a.user_id == uid) = false := by
        intro a ha
        have := List.filter_eq_nil_iff.mp hnil a ha
        simpa using this
      rw [hnil]
      simp only [List.map_nil, List.all_nil, if_pos rfl]
      rw [map_ite_eq_self db.projects _ _ hnohit]
      simp
    · obtain ⟨a, ha⟩ := List.exists_mem_of_ne_nil _ hnil
      have hrow : projectCheck (commitProjectUpdate u now a) = false := by
        simp [projectCheck, commitProjectUpdate, touchProject, applyProjectUpdates, hv]
        omega
      have hall : (((db.projects.filter (fun r => r.id == pid && r.user_id == uid)).map
          (commitProjectUpdate u now)).all projectCheck) = false := by
        cases hcase : (((db.projects.filter (fun r => r.id == pid && r.user_id == uid)).map
            (commitProjectUpdate u now)).all projectCheck) with
        | false => rfl
        | true =>
          exact absurd (List.all_eq_true.mp hcase _ (List.mem_map_of_mem _ ha))
            (by simp [hrow])
      rw [if_neg (by simp [hall])]

/-- Witness for C5: a create with progress 150 and an update to progress
150 are both rejected unchanged. -/
theorem progress_within_bounds_witness :
    createProject 1 badProject 5 dbNoProjects = (none, dbNoProjects) ∧
    updateProject 1 1 { progress := some 150 } 5 dbFourTasks = (none, dbFourTasks) :=
  ⟨progress_within_bounds.2.2.1 dbNoProjects 1 badProject 5 (Or.inr (by decide)),
   progress_within_bounds.2.2.2 dbFourTasks 1 1 { progress := some 150 } 5 150 rfl
     (Or.inr (by decide))⟩

/-- C6 (amended): the first provisioning run for an unseen identity inserts
exactly one profile whose display name is COALESCE(full_name metadata,
name metadata, local part of the email); a re-run for an identity that
already has a record writes no duplicate — the unique constraint rejects
the insert leaving the table unchanged — but it surfaces a
unique-violation error rather than completing silently. -/
theorem handle_new_user_provisioning :
    (∀ now u db, (∀ r ∈ db.profiles, r.id ≠ u.id) →
      (∀ r ∈ db.profiles, r.email ≠ u.email) →
      handle_new_user now u db =
        (none, { db with profiles := db.profiles ++
          [{ id := u.id, email := u.email,
             full_name := some (u.meta_full_name.getD
               (u.meta_name.getD (emailLocalPart u.email))),
             avatar_url := none, created_at := now, updated_at := now }] })) ∧
    (∀ now u db, (∃ r ∈ db.profiles, r.id = u.id) →
      handle_new_user now u db = (some DBError.uniqueViolation, db)) := by
  constructor
  · intro now u db h1 h2
    have h1a : (db.profiles.any (fun r => r.id == u.id)) = false := by
      rw [Bool.eq_false_iff]
      intro hcon
      obtain ⟨r, hr, hid⟩ := List.any_eq_true.mp hcon
      exact h1 r hr (by simpa using hid)
    have h2a : (db.profiles.any (fun r => r.email == u.email)) = false := by
      rw [Bool.eq_false_iff]
      intro hcon
      obtain ⟨r, hr, hem⟩ := List.any_eq_true.mp hcon
      exact h2 r hr (by simpa using hem)
    simp [handle_new_user, insertProfileRow, h1a, h2a]
  · intro now u db h
    have h1a : (db.profiles.any (fun r => r.id == u.id)) = true := by
      obtain ⟨r, hr, hid⟩ := h
      exact List.any_eq_true.mpr ⟨r, hr, by simp [hid]⟩
    simp [handle_new_user, insertProfileRow, h1a]

/-- Witness for C6 at the concrete provisioning run of newUser. -/
theorem handle_new_user_provisioning_witness :
    handle_new_user 5 newUser emptyDB =
      (none, { emptyDB with profiles := emptyDB.profiles ++
        [{ id := newUser.id, email := newUser.email,
           full_name := some (newUser.meta_full_name.getD
             (newUser.meta_name.getD (emailLocalPart newUser.email))),
           avatar_url := none, created_at := 5, updated_at := 5 }] }) ∧
    handle_new_user 6 newUser dbAfterFirstRun = (some DBError.uniqueViolation, dbAfterFirstRun) :=
  ⟨handle_new_user_provisioning.1 5 newUser emptyDB (by decide) (by decide),
   handle_new_user_provisioning.2 6 newUser dbAfterFirstRun (by decide)⟩

/-- C6 counterexample: after the first run has created the profile of
newUser, re-running the provisioning reports a unique violation — a
visible error — refuting the claim that a re-run raises no visible
error. -/
theorem handle_new_user_rerun_errors :
    (dbAfterFirstRun.profiles.map Profile.id) = [newUser.id] ∧
    (handle_new_user 6 newUser dbAfterFirstRun).1 = some DBError.uniqueViolation ∧
    (handle_new_user 6 newUser dbAfterFirstRun).1 ≠ none := by
  refine ⟨by decide, by decide, by decide⟩

/-- C7: inserting a project-client link that duplicates an existing
(project_id, client_id) pair fails with a unique violation and leaves the
store unchanged; after the pair has been deleted, inserting it again
succeeds and writes exactly the new link. -/
theorem project_client_pair_unique :
    (∀ db uid pc, (∃ p ∈ db.projects, p.id = pc.project_id ∧ p.user_id = uid) →
      (∃ c ∈ db.clients, c.id = pc.client_id) →
      (∃ l ∈ db.project_clients,
        l.project_id = pc.project_id ∧ l.client_id = pc.client_id) →
      insertProjectClient uid pc db = (some DBError.uniqueViolation, db)) ∧
    (∀ db uid pc, (∃ p ∈ db.projects, p.id = pc.project_id ∧ p.user_id = uid) →
      (∃ c ∈ db.clients, c.id = pc.client_id) →
      (∀ l ∈ db.project_clients, l.id ≠ pc.id) →
      insertProjectClient uid pc (deleteProjectClientPair pc.project_id pc.client_id db) =
        (none, { deleteProjectClientPair pc.project_id pc.client_id db with
          project_clients :=
            (deleteProjectClientPair pc.project_id pc.client_id db).project_clients
              ++ [pc] })) := by
  constructor
  · intro db uid pc hproj hcli hdup
    have hrls : (db.projects.any (fun p => p.id == pc.project_id && p.user_id == uid)) = true := by
      obtain ⟨p, hp, h1, h2⟩ := hproj
      exact List.any_eq_true.mpr ⟨p, hp, by simp [h1, h2]⟩
    have hfkp : (db.projects.any (fun p => p.id == pc.project_id)) = true := by
      obtain ⟨p, hp, h1, _⟩ := hproj
      exact List.any_eq_true.mpr ⟨p, hp, by simp [h1]⟩
    have hfkc : (db.clients.any (fun c => c.id == pc.client_id)) = true := by
      obtain ⟨c, hc, h1⟩ := hcli
      exact List.any_eq_true.mpr ⟨c, hc, by simp [h1]⟩
    have hpair : (db.project_clients.any
        (fun l => l.project_id == pc.project_id && l.client_id == pc.client_id)) = true := by
      obtain ⟨l, hl, h1, h2⟩ := hdup
      exact List.any_eq_true.mpr ⟨l, hl, by simp [h1, h2]⟩
    simp [insertProjectClient, hrls, hfkp, hfkc, hpair]
  · intro db uid pc hproj hcli hid
    have hrls : (db.projects.any (fun p => p.id == pc.project_id && p.user_id == uid)) = true := by
      obtain ⟨p, hp, h1, h2⟩ := hproj
      exact List.any_eq_true.mpr ⟨p, hp, by simp [h1, h2]⟩
    have hfkp : (db.projects.any (fun p => p.id == pc.project_id)) = true := by
      obtain ⟨p, hp, h1, _⟩ := hproj
      exact List.any_eq_true.mpr ⟨p, hp, by simp [h1]⟩
    have hfkc : (db.clients.any (fun c => c.id == pc.client_id)) = true := by
      obtain ⟨c, hc, h1⟩ := hcli
      exact List.any_eq_true.mpr ⟨c, hc, by simp [h1]⟩
    have hpair : ((deleteProjectClientPair pc.project_id pc.client_id db).project_clients.any
        (fun l => l.project_id == pc.project_id && l.client_id == pc.client_id)) = false := by
      rw [Bool.eq_false_iff]
      intro hcon
      obtain ⟨l, hl, hmatch⟩ := List.any_eq_true.mp hcon
      have hkeep := (List.mem_filter.mp hl).2
      simp only [Bool.not_eq_true'] at hkeep
      rw [hmatch] at hkeep
      cases hkeep
    have hidf : ((deleteProjectClientPair pc.project_id pc.client_id db).project_clients.any
        (fun l => l.id == pc.id)) = false := by
      rw [Bool.eq_false_iff]
      intro hcon
      obtain ⟨l, hl, hmatch⟩ := List.any_eq_true.mp hcon
      exact hid l (List.mem_filter.mp hl).1 (by simpa using hmatch)
    simp only [insertProjectClient, deleteProjectClientPair, hrls, hfkp, hfkc]
    simp only [deleteProjectClientPair] at hpair hidf
    simp only [hpair, hidf, Bool.not_true, Bool.not_false, Bool.false_eq_true,
      if_false, if_true]

/-- Witness for C7 at dbLinked: the duplicate of link (11, 21) is refused
and the store kept; after deleting the pair, inserting succeeds. -/
theorem project_client_pair_unique_witness :
    insertProjectClient 1 (mkLink 32 11 21) dbLinked =
      (some DBError.uniqueViolation, dbLinked) ∧
    insertProjectClient 1 (mkLink 32 11 21)
        (deleteProjectClientPair (mkLink 32 11 21).project_id (mkLink 32 11 21).client_id dbLinked) =
      (none, { deleteProjectClientPair (mkLink 32 11 21).project_id (mkLink 32 11 21).client_id dbLinked with
        project_clients :=
          (deleteProjectClientPair (mkLink 32 11 21).project_id (mkLink 32 11 21).client_id dbLinked).project_clients
            ++ [mkLink 32 11 21] }) :=
  ⟨project_client_pair_unique.1 dbLinked 1 (mkLink 32 11 21)
      ⟨mkProject 11 1, by decide, by decide, by decide⟩
      ⟨mkClient 21 1 "zeta", by decide, by decide⟩
      ⟨mkLink 31 11 21, by decide, by decide, by decide⟩,
   project_client_pair_unique.2 dbLinked 1 (mkLink 32 11 21)
      ⟨mkProject 11 1, by decide, by decide, by decide⟩
      ⟨mkClient 21 1 "zeta", by decide, by decide⟩
      (by decide)⟩

/-! ## The project_stats view (claims C8, C9) -/

theorem find_statsRow (db : DB) (l : List Nat) (uid : Nat) (h : uid ∈ l) :
    (l.map (statsRowFor db)).find? (fun r => r.user_id == uid) =
      some (statsRowFor db uid) := by
  induction l with
  | nil => cases h
  | cons a as ih =>
    by_cases ha : a = uid
    · subst ha
      simp [List.find?_cons, statsRowFor]
    · have h2 : uid ∈ as := by
        rcases List.mem_cons.mp h with h1 | h1
        · exact absurd h1.symm ha
        · exact h1
      have hpred : ((statsRowFor db a).user_id == uid) = false := by
        simp [statsRowFor, ha]
      simp only [List.map_cons, List.find?_cons, hpred]
      exact ih h2

theorem sum_partition_by_type (l : List Project) (f : Project → Rat) :
    (l.map f).sum =
      ((l.filter (fun p => p.type == ProjectType.client)).map f).sum +
      ((l.filter (fun p => p.type == ProjectType.personal)).map f).sum +
      ((l.filter (fun p => p.type == ProjectType.open_source)).map f).sum := by
  induction l with
  | nil => simp
  | cons a as ih =>
    cases hty : a.type <;>
      simp [List.filter_cons, hty, ih] <;> ring

/-- C8 (amended): an identity that owns no project has no row in the
project_stats view at all — the lookup yields none (an absent row, not an
error), rather than an explicit all-zero record. -/
theorem stats_no_projects_no_row (db : DB) (uid : Nat)
    (h : ∀ p ∈ db.projects, p.user_id ≠ uid) :
    statsFor db uid = none := by
  rw [statsFor, List.find?_eq_none]
  intro r hr
  obtain ⟨a, hadedup, rfl⟩ := List.mem_map.mp hr
  have hamem : a ∈ db.projects.map (fun p => p.user_id) := List.mem_dedup.mp hadedup
  obtain ⟨p, hp, rfl⟩ := List.mem_map.mp hamem
  simp [statsRowFor, h p hp]

/-- Witness for C8 (amended) at the concrete store with no projects. -/
theorem stats_no_projects_no_row_witness :
    statsFor dbNoProjects 1 = none :=
  stats_no_projects_no_row dbNoProjects 1 (by decide)

/-- C8 counterexample: identity 1 exists in dbNoProjects and owns zero
projects, yet the stats lookup returns no row, not the all-zero record
the claim promises. -/
theorem stats_zero_projects_counterexample :
    (dbNoProjects.profiles.map Profile.id) = [1] ∧
    dbNoProjects.projects = [] ∧
    statsFor dbNoProjects 1 = none ∧
    statsFor dbNoProjects 1 ≠ some (zeroStatsRow 1) :=
  ⟨by decide, by decide, by decide, by decide⟩

/-- C9: for an identity owning at least one project the view carries its
row: COUNT(*) of the owned projects, one count per status in
{in_progress, completed, delivered}, SUM(budget), SUM(paid_amount) over
every owned project — the three project types contribute alike — and
AVG(progress) (stated multiplicatively to avoid division). -/
theorem stats_row_aggregates (db : DB) (uid : Nat)
    (h : ∃ p ∈ db.projects, p.user_id = uid) :
    statsFor db uid = some (statsRowFor db uid) ∧
    (statsRowFor db uid).total_projects = (ownedProjects db uid).length ∧
    (statsRowFor db uid).active_projects =
      ((ownedProjects db uid).filter (fun p => p.status == ProjectStatus.in_progress)).length ∧
    (statsRowFor db uid).completed_projects =
      ((ownedProjects db uid).filter (fun p => p.status == ProjectStatus.completed)).length ∧
    (statsRowFor db uid).delivered_projects =
      ((ownedProjects db uid).filter (fun p => p.status == ProjectStatus.delivered)).length ∧
    (statsRowFor db uid).total_budget =
      ((ownedProjects db uid).map (fun p => p.budget.getD 0)).sum ∧
    (statsRowFor db uid).total_revenue =
      (((ownedProjects db uid).filter (fun p => p.type == ProjectType.client)).map
        (fun p => p.paid_amount)).sum +
      (((ownedProjects db uid).filter (fun p => p.type == ProjectType.personal)).map
        (fun p => p.paid_amount)).sum +
      (((ownedProjects db uid).filter (fun p => p.type == ProjectType.open_source)).map
        (fun p => p.paid_amount)).sum ∧
    (statsRowFor db uid).average_progress * ((ownedProjects db uid).length : Rat) =
      ((ownedProjects db uid).map (fun p => (p.progress : Rat))).sum := by
  have hlen : (ownedProjects db uid).length ≠ 0 := by
    obtain ⟨p, hp, hu⟩ := h
    have hmem : p ∈ ownedProjects db uid := List.mem_filter.mpr ⟨hp, by simp [hu]⟩
    intro hzero
    rw [List.length_eq_zero] at hzero
    rw [hzero] at hmem
    cases hmem
  refine ⟨?_, rfl, rfl, rfl, rfl, rfl, ?_, ?_⟩
  · rw [statsFor, project_stats]
    apply find_statsRow
    apply List.mem_dedup.mpr
    obtain ⟨p, hp, hu⟩ := h
    exact List.mem_map.mpr ⟨p, hp, hu⟩
  · exact sum_partition_by_type (ownedProjects db uid) (fun p => p.paid_amount)
  · simp only [statsRowFor]
    rw [if_neg hlen]
    exact div_mul_cancel₀ _ (Nat.cast_ne_zero.mpr hlen)

/-- Witness for C9: the stats row of identity 1 in dbShared. -/
theorem stats_row_aggregates_witness :
    statsFor dbShared 1 = some (statsRowFor dbShared 1) :=
  (stats_row_aggregates dbShared 1 ⟨mkProject 11 1, by decide, by decide⟩).1

/-- C10: for an authenticated caller deleteProject reports true whenever
storage raises no error — in the model the owner-scoped delete never
does — including when the id matches no row or a row of another owner;
in both of those cases the store is left untouched, so the caller cannot
tell a foreign or nonexistent project from a successfully deleted one. -/
theorem deleteProject_true_on_no_match :
    (∀ uid pid db, (deleteProject uid pid db).1 = true) ∧
    (∀ uid pid db, (∀ p ∈ db.projects, p.id = pid → p.user_id ≠ uid) →
      deleteProject uid pid db = (true, db)) := by
  refine ⟨fun uid pid db => rfl, ?_⟩
  intro uid pid db h
  have hno : ∀ p ∈ db.projects, (p.id == pid && p.user_id == uid) = false := by
    intro p hp
    by_cases hid : p.id = pid
    · simp [hid, h p hp hid]
    · simp [hid]
  have hfil : db.projects.filter (fun p => p.id == pid && p.user_id == uid) = [] :=
    List.filter_eq_nil_iff.mpr (fun p hp => by simp [hno p hp])
  simp only [deleteProject, hfil, List.map_nil]
  rw [filter_not_eq_self db.projects _ hno]
  simp

/-- Witness for C10: identity 1 deleting the foreign project 10 of
identity 2 gets true and changes nothing. -/
theorem deleteProject_true_on_no_match_witness :
    deleteProject 1 10 dbShared = (true, dbShared) :=
  deleteProject_true_on_no_match.2 1 10 dbShared (by decide)

/-! ## Owner scoping (claims C1, C10) -/

theorem getProject_no_hit (uid pid : Nat) (db : DB)
    (h : ∀ q ∈ db.projects, (q.id == pid && q.user_id == uid) = false) :
    getProject uid pid db = none := by
  have hfil : db.projects.filter (fun q => q.id == pid && q.user_id == uid) = [] :=
    List.filter_eq_nil_iff.mpr (fun q hq => by simp [h q hq])
  simp only [getProject, hfil]

theorem updateProject_no_hit (uid pid : Nat) (u : ProjectUpdates) (now : Nat) (db : DB)
    (h : ∀ q ∈ db.projects, (q.id == pid && q.user_id == uid) = false) :
    updateProject uid pid u now db = (none, db) := by
  have hfil : db.projects.filter (fun q => q.id == pid && q.user_id == uid) = [] :=
    List.filter_eq_nil_iff.mpr (fun q hq => by simp [h q hq])
  simp only [updateProject, hfil, List.map_nil, List.all_nil, if_pos rfl]
  rw [map_ite_eq_self db.projects _ _ h]
  simp

theorem deleteProject_no_hit (uid pid : Nat) (db : DB)
    (h : ∀ q ∈ db.projects, (q.id == pid && q.user_id == uid) = false) :
    deleteProject uid pid db = (true, db) := by
  have hfil : db.projects.filter (fun q => q.id == pid && q.user_id == uid) = [] :=
    List.filter_eq_nil_iff.mpr (fun q hq => by simp [h q hq])
  simp only [deleteProject, hfil, List.map_nil]
  rw [filter_not_eq_self db.projects _ h]
  simp

theorem updateClient_no_hit (uid cid : Nat) (u : ClientUpdates) (now : Nat) (db : DB)
    (h : ∀ d ∈ db.clients, (d.id == cid && d.user_id == uid) = false) :
    updateClient uid cid u now db = (none, db) := by
  have hfil : db.clients.filter (fun d => d.id == cid && d.user_id == uid) = [] :=
    List.filter_eq_nil_iff.mpr (fun d hd => by simp [h d hd])
  simp only [updateClient, hfil, List.map_nil]
  rw [map_ite_eq_self db.clients _ _ h]

theorem deleteClient_no_hit (uid cid : Nat) (db : DB)
    (h : ∀ d ∈ db.clients, (d.id == cid && d.user_id == uid) = false) :
    deleteClient uid cid db = (true, db) := by
  have hfil : db.clients.filter (fun d => d.id == cid && d.user_id == uid) = [] :=
    List.filter_eq_nil_iff.mpr (fun d hd => by simp [h d hd])
  simp only [deleteClient, hfil, List.map_nil]
  rw [filter_not_eq_self db.clients _ h]
  simp

theorem child_filter_erase {α : Type} (rows : List α) (projOf : α → Nat) (db : DB)
    (uid : Nat) (p : Project) (hop : p.user_id ≠ uid)
    (hup : ∀ q ∈ db.projects, q.id = p.id → q = p) :
    (rows.filter (fun t => !(projOf t == p.id))).filter
      (fun t => (db.projects.filter (fun q => !(q.id == p.id))).any
        (fun q => q.id == projOf t && q.user_id == uid)) =
    rows.filter (fun t => db.projects.any (fun q => q.id == projOf t && q.user_id == uid)) := by
  have hvis : ∀ t : α,
      ((db.projects.filter (fun q => !(q.id == p.id))).any
        (fun q => q.id == projOf t && q.user_id == uid)) =
      (db.projects.any (fun q => q.id == projOf t && q.user_id == uid)) := by
    intro t
    cases hv : db.projects.any (fun q => q.id == projOf t && q.user_id == uid) with
    | true =>
      obtain ⟨q, hq, hqp⟩ := List.any_eq_true.mp hv
      have hqid : q.id ≠ p.id := by
        intro he
        have heq := hup q hq he
        rw [heq] at hqp
        rw [Bool.and_eq_true] at hqp
        exact hop (by simpa using hqp.2)
      exact List.any_eq_true.mpr ⟨q, List.mem_filter.mpr ⟨hq, by simp [hqid]⟩, hqp⟩
    | false =>
      cases hl : (db.projects.filter (fun q => !(q.id == p.id))).any
          (fun q => q.id == projOf t && q.user_id == uid) with
      | false => rfl
      | true =>
        obtain ⟨q, hq, hqp⟩ := List.any_eq_true.mp hl
        have hcon : (db.projects.any (fun r => r.id == projOf t && r.user_id == uid)) = true :=
          List.any_eq_true.mpr ⟨q, (List.mem_filter.mp hq).1, hqp⟩
        rw [hv] at hcon
        cases hcon
  rw [List.filter_congr (fun t _ => hvis t)]
  refine filter_filter_of_imp rows _ _ ?_
  intro t _ hvt
  obtain ⟨q, hq, hqp⟩ := List.any_eq_true.mp hvt
  rw [Bool.and_eq_true] at hqp
  have hqid : q.id ≠ p.id := by
    intro he
    have heq := hup q hq he
    rw [heq] at hqp
    exact hop (by simpa using hqp.2)
  have hpt : projOf t = q.id := (eq_of_beq hqp.1).symm
  simp [hpt, hqid]

/-- C1 (amended): across the modelled operations — owner-scoped reads,
updates and deletes of projects and clients and the transitive child-table
reads — a record of another owner behaves exactly like a nonexistent one:
reads return the same observable result on the store with and without the
record, and mutations aimed at it leave the store unchanged and report the
same no-row outcome as for a missing id. The one exception, exhibited by
the counterexample, is the insert into project_clients, whose client-side
foreign-key check consults the table beneath row level security and so can
observe another owner's client. -/
theorem owner_scoping_foreign_invisible (db : DB) (uid : Nat) (p : Project) (c : Client)
    (hp : p ∈ db.projects) (hop : p.user_id ≠ uid)
    (hup : ∀ q ∈ db.projects, q.id = p.id → q = p)
    (hc : c ∈ db.clients) (hoc : c.user_id ≠ uid)
    (huc : ∀ d ∈ db.clients, d.id = c.id → d = c) :
    getProject uid p.id db = none ∧
    getProject uid p.id (eraseProjectCascade p.id db) = none ∧
    getProjects uid db = getProjects uid (eraseProjectCascade p.id db) ∧
    (∀ u now, updateProject uid p.id u now db = (none, db)) ∧
    (∀ u now, updateProject uid p.id u now (eraseProjectCascade p.id db) =
      (none, eraseProjectCascade p.id db)) ∧
    deleteProject uid p.id db = (true, db) ∧
    deleteProject uid p.id (eraseProjectCascade p.id db) =
      (true, eraseProjectCascade p.id db) ∧
    listTasks uid db = listTasks uid (eraseProjectCascade p.id db) ∧
    listTimeline uid db = listTimeline uid (eraseProjectCascade p.id db) ∧
    listProjectClients uid db = listProjectClients uid (eraseProjectCascade p.id db) ∧
    getClients uid db = getClients uid (eraseClientCascade c.id db) ∧
    (∀ u now, updateClient uid c.id u now db = (none, db)) ∧
    deleteClient uid c.id db = (true, db) := by
  have hforeign : ∀ q ∈ db.projects, (q.id == p.id && q.user_id == uid) = false := by
    intro q hq
    by_cases hqid : q.id = p.id
    · have heq := hup q hq hqid
      rw [heq]
      simp [hop]
    · simp [hqid]
  have hforeign1 : ∀ q ∈ (eraseProjectCascade p.id db).projects,
      (q.id == p.id && q.user_id == uid) = false := by
    intro q hq
    exact hforeign q (List.mem_filter.mp hq).1
  have hcforeign : ∀ d ∈ db.clients, (d.id == c.id && d.user_id == uid) = false := by
    intro d hd
    by_cases hdid : d.id = c.id
    · have heq := huc d hd hdid
      rw [heq]
      simp [hoc]
    · simp [hdid]
  have hnotid : ∀ q ∈ db.projects, (q.user_id == uid) = true → (!(q.id == p.id)) = true := by
    intro q hq hQ
    by_cases hqid : q.id = p.id
    · have heq := hup q hq hqid
      rw [heq] at hQ
      exact absurd (by simpa using hQ) hop
    · simp [hqid]
  have hnotidc : ∀ d ∈ db.clients, (d.user_id == uid) = true → (!(d.id == c.id)) = true := by
    intro d hd hQ
    by_cases hdid : d.id = c.id
    · have heq := huc d hd hdid
      rw [heq] at hQ
      exact absurd (by simpa using hQ) hoc
    · simp [hdid]
  refine ⟨getProject_no_hit uid p.id db hforeign,
    getProject_no_hit uid p.id _ hforeign1, ?_,
    fun u now => updateProject_no_hit uid p.id u now db hforeign,
    fun u now => updateProject_no_hit uid p.id u now _ hforeign1,
    deleteProject_no_hit uid p.id db hforeign,
    deleteProject_no_hit uid p.id _ hforeign1, ?_, ?_, ?_, ?_,
    fun u now => updateClient_no_hit uid c.id u now db hcforeign,
    deleteClient_no_hit uid c.id db hcforeign⟩
  · have e1 : (eraseProjectCascade p.id db).projects =
        db.projects.filter (fun q => !(q.id == p.id)) := rfl
    simp only [getProjects, e1]
    rw [filter_filter_of_imp db.projects _ _ hnotid]
  · simp only [listTasks, eraseProjectCascade]
    exact (child_filter_erase db.tasks (fun t => t.project_id) db uid p hop hup).symm
  · simp only [listTimeline, eraseProjectCascade]
    exact (child_filter_erase db.project_timeline (fun e => e.project_id) db uid p hop hup).symm
  · simp only [listProjectClients, eraseProjectCascade]
    exact (child_filter_erase db.project_clients (fun l => l.project_id) db uid p hop hup).symm
  · have e2 : (eraseClientCascade c.id db).clients =
        db.clients.filter (fun d => !(d.id == c.id)) := rfl
    simp only [getClients, e2]
    rw [filter_filter_of_imp db.clients _ _ hnotidc]

/-- Witness for C1 (amended) at dbShared: caller 1 against foreign
project 10 and foreign client 20. -/
theorem owner_scoping_foreign_invisible_witness :
    getProject 1 (mkProject 10 2).id dbShared = none ∧
    deleteProject 1 (mkProject 10 2).id dbShared = (true, dbShared) ∧
    getClients 1 dbShared =
      getClients 1 (eraseClientCascade (mkClient 20 2 "acme").id dbShared) :=
  ⟨(owner_scoping_foreign_invisible dbShared 1 (mkProject 10 2) (mkClient 20 2 "acme")
      (by decide) (by decide) (by decide) (by decide) (by decide) (by decide)).1,
   (owner_scoping_foreign_invisible dbShared 1 (mkProject 10 2) (mkClient 20 2 "acme")
      (by decide) (by decide) (by decide) (by decide) (by decide) (by decide)).2.2.2.2.2.1,
   (owner_scoping_foreign_invisible dbShared 1 (mkProject 10 2) (mkClient 20 2 "acme")
      (by decide) (by decide) (by decide) (by decide) (by decide)
      (by decide)).2.2.2.2.2.2.2.2.2.2.1⟩

/-- C1 counterexample: client 20 belongs to identity 2, yet identity 1 can
insert a link from its own project 11 to client 20 — the insert succeeds
exactly when the foreign client exists and fails with a foreign-key
violation when it does not, so a mutation on a project-child table
distinguishes another owner's record from a nonexistent one. -/
theorem fk_probe_observes_foreign_client :
    (mkClient 20 2 "acme").user_id ≠ 1 ∧
    mkClient 20 2 "acme" ∈ dbShared.clients ∧
    (insertProjectClient 1 probeLink dbShared).1 = none ∧
    (insertProjectClient 1 probeLink dbSharedNoClient20).1 = some DBError.fkViolation ∧
    (insertProjectClient 1 probeLink dbShared).1 ≠
      (insertProjectClient 1 probeLink dbSharedNoClient20).1 :=
  ⟨by decide, by decide, by decide, by decide, by decide⟩

end DevFlow
